import Mathlib

/-!
Verification development for the pyZOCP node (`src/zocp.py`).

The embedding models JSON values (`JValue`) as used by the capability tree,
Python dicts as insertion-ordered association lists, the module-level helpers
`dict_get` and `dict_merge`, the message handlers `_handle_GET`, `_handle_SET`,
`_handle_MOD` and the verb dispatch of `get_message`, and the façade operations
`set_object` / `register_int` / `register_float` / `register_percent` and the
peer helpers `peer_get` / `peer_set` / `peer_subscribe` / `peer_unsubscribe`.

Numeric JSON leaves are modelled as integers; none of the verified properties
depends on fractional arithmetic.  Fallible Python code (statements that can
raise) is modelled with `Option` / `Except`.
-/

/-- A JSON value, as produced by `json.loads` and stored in the capability
tree.  Objects are insertion-ordered association lists with string keys,
mirroring Python dicts whose keys come from JSON. -/
inductive JValue where
  | null : JValue
  | bool : Bool → JValue
  | num : Int → JValue
  | str : String → JValue
  | arr : List JValue → JValue
  | obj : List (String × JValue) → JValue

/-- Python `d[key]`/`d.get(key)` lookup on an insertion-ordered dict. -/
def assocGet {α β : Type} [DecidableEq α] : List (α × β) → α → Option β
  | [], _ => none
  | (k, v) :: rest, key => if k = key then some v else assocGet rest key

/-- Python `d[key] = value`: update in place when the key exists, otherwise
append at the end (dicts preserve insertion order). -/
def assocSet {α β : Type} [DecidableEq α] : List (α × β) → α → β → List (α × β)
  | [], key, value => [(key, value)]
  | (k, v) :: rest, key, value =>
      if k = key then (k, value) :: rest else (k, v) :: assocSet rest key value

/-- Python `d.pop(key)` (the removal part; absence is checked by callers). -/
def assocRemove {α β : Type} [DecidableEq α] : List (α × β) → α → List (α × β)
  | [], _ => []
  | (k, v) :: rest, key => if k = key then rest else (k, v) :: assocRemove rest key

/-- Python truthiness of a JSON value (`if not data:` tests). -/
def truthy : JValue → Bool
  | JValue.null => false
  | JValue.bool b => b
  | JValue.num n => decide (n ≠ 0)
  | JValue.str s => decide (s ≠ "")
  | JValue.arr xs => !xs.isEmpty
  | JValue.obj kvs => !kvs.isEmpty

mutual

/-- The per-key update performed by `dict_merge`'s loop body: when both the
existing and the incoming value are dicts the merge recurses
(`dict_merge(a[key], b[key], ...)`), otherwise the incoming value overwrites
(`a[key] = b[key]`). -/
def mergeVal : JValue → JValue → JValue
  | JValue.obj a, JValue.obj b => JValue.obj (objMerge a b)
  | _, b => b

/-- The `for key in b:` loop of `dict_merge` when both arguments are dicts:
fold the keys of `b` into `a` in order.  A key present in `a` is updated in
place; an absent key is appended (`a[key] = b[key]`). -/
def objMerge : List (String × JValue) → List (String × JValue) → List (String × JValue)
  | a, [] => a
  | a, (k, bv) :: rest =>
      objMerge
        (match assocGet a k with
         | some av => assocSet a k (mergeVal av bv)
         | none => a ++ [(k, bv)]) rest

end

/-- `dict_merge(a, b)` from `src/zocp.py`: merges `b` into `a`, overwriting
`a` with `b` on conflicts.  `if not isinstance(a, dict): return b`; when `a`
is a dict, `for key in b:` iterates `b`.  A non-dict `b` makes the loop body
raise `TypeError` (modelled `none`), except that iterating an empty string or
empty list performs no iterations and returns `a` unchanged. -/
def dict_merge (a b : JValue) : Option JValue :=
  match a with
  | JValue.obj ak =>
    match b with
    | JValue.obj bk => some (JValue.obj (objMerge ak bk))
    | JValue.str "" => some (JValue.obj ak)
    | JValue.arr [] => some (JValue.obj ak)
    | _ => none
  | _ => some b

/-- `dict_get(d, keys)` from `src/zocp.py`: nested lookup; a missing key
raises `KeyError` (modelled `none`, as is indexing a non-dict). -/
def dict_get : JValue → List String → Option JValue
  | d, [] => some d
  | d, key :: rest =>
      match d with
      | JValue.obj kvs =>
          match assocGet kvs key with
          | some v => dict_get v rest
          | none => none
      | _ => none

/-- Keys of an association list are pairwise distinct (checked by first-hit
lookup).  Python dicts can never hold a duplicate key, so this is an
invariant of every value decoded from JSON or built by the node. -/
def nodupKeys {β : Type} : List (String × β) → Bool
  | [] => true
  | (k, _) :: rest => (assocGet rest k).isNone && nodupKeys rest

mutual

/-- Well-formedness of a JSON value as a Python-dict tree: every object level
has pairwise-distinct keys.  (Arrays are never descended into by the merge,
so their elements are unconstrained.) -/
def wfB : JValue → Bool
  | JValue.obj kvs => nodupKeys kvs && wfEntries kvs
  | _ => true

/-- Well-formedness of every value of an object's entry list. -/
def wfEntries : List (String × JValue) → Bool
  | [] => true
  | (_, v) :: rest => wfB v && wfEntries rest

end

/-- The mutable state of a ZOCP node that the verified handlers touch:
`self.capability` and `self.peers` (peer UUID, modelled as `Nat`, to that
peer's mirrored capability). -/
structure NodeState where
  capability : JValue
  peers : List (Nat × JValue)

/-- Observable side effects of handling one transport event: outgoing
transport sends, log lines, and invocations of the overridable callback
surface. -/
inductive Effect where
  | whisper (peer : Nat) (msg : JValue)
  | shout (grp : String) (msg : JValue)
  | logError (s : String)
  | cbEnter (peer : Nat)
  | cbExit (peer : Nat)
  | cbJoin (peer : Nat) (grp : String)
  | cbLeave (peer : Nat) (grp : String)
  | cbWhisper (peer : Nat)
  | cbShout (peer : Nat) (grp : String)
  | cbModified (peer : Option Nat)
  | cbPeerModified (peer : Nat)
  | cbPeerReplied (peer : Nat)
  | cbPeerSignaled (peer : Nat)

/-- Python exceptions that can escape the handlers. -/
inductive ZErr where
  | keyError (s : String)
  | typeError (s : String)
  | attrError (s : String)
  | exc (s : String)

/-- A transport event as consumed by `get_message`, after frame decoding:
WHISPER/SHOUT carry `some j` when `json.loads` succeeded with value `j` and
`none` when decoding raised (the code catches that and logs). -/
inductive Event where
  | enter (peer : Nat)
  | exit (peer : Nat)
  | join (peer : Nat) (grp : String)
  | leave (peer : Nat) (grp : String)
  | shout (peer : Nat) (grp : String) (frame : Option JValue)
  | whisper (peer : Nat) (frame : Option JValue)

/-- `peer_get(peer, keys)`: whisper `{"GET": keys}`.  (The `json.dumps` +
`encode` wire step is left abstract; messages are modelled as JSON values.) -/
def peer_get (peer : Nat) (keys : JValue) : Effect :=
  Effect.whisper peer (JValue.obj [("GET", keys)])

/-- `peer_get_capability(peer)`: `peer_get(peer, None)`. -/
def peer_get_capability (peer : Nat) : Effect :=
  peer_get peer JValue.null

/-- `peer_set(peer, data)`: whisper `{"SET": data}`. -/
def peer_set (peer : Nat) (data : JValue) : Effect :=
  Effect.whisper peer (JValue.obj [("SET", data)])

/-- `peer_call(peer, method, *args)`: whisper `{"CALL": [method, args]}`. -/
def peer_call (peer : Nat) (method : JValue) (args : List JValue) : Effect :=
  Effect.whisper peer (JValue.obj [("CALL", JValue.arr [method, JValue.arr args])])

/-- `peer_subscribe(peer, signal, sensor)`: whisper `{"SUB": [signal, sensor]}`. -/
def peer_subscribe (peer : Nat) (signal sensor : JValue) : Effect :=
  Effect.whisper peer (JValue.obj [("SUB", JValue.arr [signal, sensor])])

/-- `peer_unsubscribe(peer, signal, sensor)`: the source builds
`json.dumps({'SUB': [signal, sensor]})` — the verb sent is `SUB`, exactly as
in `peer_subscribe`, despite the function's name and docstring. -/
def peer_unsubscribe (peer : Nat) (signal sensor : JValue) : Effect :=
  Effect.whisper peer (JValue.obj [("SUB", JValue.arr [signal, sensor])])

/-- `self.capability.get(get_item)`: lookup with default `None`.  Only called
with the node's capability, which is a dict. -/
def capGet (cap : JValue) (key : String) : JValue :=
  match cap with
  | JValue.obj kvs => (assocGet kvs key).getD JValue.null
  | _ => JValue.null

/-- One iteration of `_handle_GET`'s `ret[get_item] = self.capability.get(get_item)`.
Python hashes the item to use it as a dict key: strings look the key up in the
capability; other hashable values miss (the capability is string-keyed) and
their `json.dumps` key rendering is used; unhashable items raise `TypeError`
(modelled `none`). -/
def retInsert (cap : JValue) (ret : List (String × JValue)) :
    JValue → Option (List (String × JValue))
  | JValue.str s => some (assocSet ret s (capGet cap s))
  | JValue.num n => some (assocSet ret (toString n) JValue.null)
  | JValue.bool true => some (assocSet ret "true" JValue.null)
  | JValue.bool false => some (assocSet ret "false" JValue.null)
  | JValue.null => some (assocSet ret "null" JValue.null)
  | _ => none

/-- The `for get_item in data:` loop of `_handle_GET`. -/
def buildRet (cap : JValue) (ret : List (String × JValue)) :
    List JValue → Option (List (String × JValue))
  | [] => some ret
  | item :: rest =>
      match retInsert cap ret item with
      | some ret' => buildRet cap ret' rest
      | none => none

/-- `_handle_GET(data, peer)`: a falsy payload is answered with a whisper of
`{'MOD': self.get_capability()}`; otherwise the requested items are collected
into `ret`, `self.peer_set(peer, data)` is called (sending `{'SET': data}` to
the requester), and `{'MOD': ret}` is whispered.  Iterating a non-iterable
truthy payload raises `TypeError`. -/
def handle_GET (st : NodeState) (data : JValue) (peer : Nat) :
    Except ZErr (NodeState × List Effect) :=
  if truthy data = false then
    Except.ok (st, [Effect.whisper peer (JValue.obj [("MOD", st.capability)])])
  else
    match data with
    | JValue.arr items =>
        match buildRet st.capability [] items with
        | some ret =>
            Except.ok (st, [peer_set peer data,
              Effect.whisper peer (JValue.obj [("MOD", JValue.obj ret)])])
        | none => Except.error (ZErr.typeError "unhashable type")
    | JValue.obj kvs =>
        -- iterating a dict yields its keys
        Except.ok (st, [peer_set peer data,
          Effect.whisper peer (JValue.obj [("MOD",
            JValue.obj (kvs.map (fun p => (p.1, capGet st.capability p.1))))])])
    | JValue.str s =>
        -- iterating a string yields its one-character substrings
        match buildRet st.capability [] (s.toList.map (fun c => JValue.str (String.mk [c]))) with
        | some ret =>
            Except.ok (st, [peer_set peer data,
              Effect.whisper peer (JValue.obj [("MOD", JValue.obj ret)])])
        | none => Except.error (ZErr.typeError "unhashable type")
    | _ => Except.error (ZErr.typeError "object is not iterable")

/-- `_handle_SET(data, peer)`: `self.capability = dict_merge(self.capability,
data)` followed by `self.on_modified(data, peer)` — no access check of any
kind is performed. -/
def handle_SET (st : NodeState) (data : JValue) (peer : Nat) :
    Except ZErr (NodeState × List Effect) :=
  match dict_merge st.capability data with
  | some cap => Except.ok ({ st with capability := cap }, [Effect.cbModified (some peer)])
  | none => Except.error (ZErr.typeError "dict_merge")

/-- `_handle_MOD(data, peer)`: `self.peers[peer] = dict_merge(self.peers.get(peer),
data)` then `self.on_peer_modified(peer, data)`.  `peers.get` yields `None`
for an unknown peer and `dict_merge(None, data)` returns `data`. -/
def handle_MOD (st : NodeState) (data : JValue) (peer : Nat) :
    Except ZErr (NodeState × List Effect) :=
  match dict_merge ((assocGet st.peers peer).getD JValue.null) data with
  | some m =>
      Except.ok ({ st with peers := assocSet st.peers peer m }, [Effect.cbPeerModified peer])
  | none => Except.error (ZErr.typeError "dict_merge")

/-- One arm of the verb dispatch in `get_message`.  `_handle_CALL`,
`_handle_SUB`, `_handle_UNSUB`, `_handle_REP` and `_handle_SIG` all begin with
a bare `return`, so they do nothing.  A verb not in the eight-way `if`/`elif`
chain falls into `getattr(self, 'handle_'+method)`, which on the base class
raises, caught and re-raised as `Exception('No %s method on resource: %s')`. -/
def dispatchVerb (st : NodeState) (verb : String) (payload : JValue) (peer : Nat) :
    Except ZErr (NodeState × List Effect) :=
  if verb = "GET" then handle_GET st payload peer
  else if verb = "SET" then handle_SET st payload peer
  else if verb = "CALL" then Except.ok (st, [])
  else if verb = "SUB" then Except.ok (st, [])
  else if verb = "UNSUB" then Except.ok (st, [])
  else if verb = "REP" then Except.ok (st, [])
  else if verb = "MOD" then handle_MOD st payload peer
  else if verb = "SIG" then Except.ok (st, [])
  else Except.error (ZErr.exc ("No " ++ verb ++ " method on resource"))

/-- The `for method in msg.keys():` loop of `get_message`: each key of the
decoded object is dispatched in order; an exception aborts the loop and
propagates. -/
def dispatch (st : NodeState) : List (String × JValue) → Nat →
    Except ZErr (NodeState × List Effect)
  | [], _ => Except.ok (st, [])
  | (verb, payload) :: rest, peer =>
      match dispatchVerb st verb payload peer with
      | Except.ok (st', effs) =>
          match dispatch st' rest peer with
          | Except.ok (st'', effs') => Except.ok (st'', effs ++ effs')
          | Except.error e => Except.error e
      | Except.error e => Except.error e

/-- The WHISPER/SHOUT tail of `get_message`: a frame that fails `json.loads`
is caught and logged (`print("ERROR: %s")`); a decoded non-object makes
`msg.keys()` raise `AttributeError` (the `else:` block of the `try` is not
protected); a decoded object is dispatched verb by verb. -/
def handleFrame (st : NodeState) (frame : Option JValue) (peer : Nat) :
    Except ZErr (NodeState × List Effect) :=
  match frame with
  | none => Except.ok (st, [Effect.logError "decode"])
  | some (JValue.obj kvs) => dispatch st kvs peer
  | some _ => Except.error (ZErr.attrError "keys")

/-- `get_message` from `src/zocp.py`: the per-event-type behavior after the
frames have been read.  ENTER registers an unknown peer with an empty mirror,
whispers `{'GET': null}` and fires the enter callback; EXIT fires the exit
callback and then `self.peers.pop(peer)`, which raises `KeyError` when the
peer has no registry entry; JOIN/LEAVE fire their callbacks; SHOUT/WHISPER
fire their callbacks and hand the frame to the JSON dispatch. -/
def get_message (st : NodeState) (ev : Event) : Except ZErr (NodeState × List Effect) :=
  match ev with
  | Event.enter peer =>
      let st' := if (assocGet st.peers peer).isSome then st
                 else { st with peers := st.peers ++ [(peer, JValue.obj [])] }
      Except.ok (st', [peer_get_capability peer, Effect.cbEnter peer])
  | Event.exit peer =>
      match assocGet st.peers peer with
      | some _ => Except.ok ({ st with peers := assocRemove st.peers peer },
          [Effect.cbExit peer])
      | none => Except.error (ZErr.keyError "peer")
  | Event.join peer grp => Except.ok (st, [Effect.cbJoin peer grp])
  | Event.leave peer grp => Except.ok (st, [Effect.cbLeave peer grp])
  | Event.shout peer grp frame =>
      match handleFrame st frame peer with
      | Except.ok (st', effs) => Except.ok (st', Effect.cbShout peer grp :: effs)
      | Except.error e => Except.error e
  | Event.whisper peer frame =>
      match handleFrame st frame peer with
      | Except.ok (st', effs) => Except.ok (st', Effect.cbWhisper peer :: effs)
      | Except.error e => Except.error e

/-- The façade state touched by `set_object` and the `register_*` methods:
`self.capability` together with `self._cur_obj_keys`, the key path of the
current insertion scope (`self._cur_obj` is the alias of the subtree at that
path, so the path determines it for the modelled operations). -/
structure FacadeState where
  capability : JValue
  cur_obj_keys : List String

/-- The dict key under which `set_object` files an object.  Python uses the
`name` argument itself, `None` included; the `None` key is rendered here the
way `json.dumps` serializes it. -/
def pyNameKey : Option String → String
  | some s => s
  | none => "null"

/-- Write `node` at key `name` inside the subtree addressed by `path`
(the model of `self._cur_obj[name] = node` through the `_cur_obj` alias).
The path was installed by `set_object`, so its nodes exist; a dangling path
would raise in Python (modelled as a no-op on the untouched part). -/
def setAtPath (cap : JValue) : List String → String → JValue → JValue
  | [], name, node =>
      match cap with
      | JValue.obj kvs => JValue.obj (assocSet kvs name node)
      | other => other
  | key :: rest, name, node =>
      match cap with
      | JValue.obj kvs =>
          match assocGet kvs key with
          | some sub => JValue.obj (assocSet kvs key (setAtPath sub rest name node))
          | none => JValue.obj kvs
      | other => other

/-- `set_object(name, type)` from `src/zocp.py`.  The `if name == None:`
branch resets `_cur_obj`/`_cur_obj_keys` to the root but does not return, so
control falls through: `objects[name]` is created (or retyped) and both
fields are unconditionally reassigned to `('objects', name)` at the end. -/
def set_object (st : FacadeState) (name : Option String) (ty : String) : FacadeState :=
  let k := pyNameKey name
  let cap' :=
    match st.capability with
    | JValue.obj kvs =>
        if truthy ((assocGet kvs "objects").getD JValue.null) = false then
          -- `if not self.capability.get('objects'):`
          JValue.obj (assocSet kvs "objects" (JValue.obj [(k, JValue.obj [("type", JValue.str ty)])]))
        else
          match assocGet kvs "objects" with
          | some (JValue.obj objs) =>
              if truthy ((assocGet objs k).getD JValue.null) = false then
                -- `elif not self.capability['objects'].get(name):`
                JValue.obj (assocSet kvs "objects"
                  (JValue.obj (assocSet objs k (JValue.obj [("type", JValue.str ty)]))))
              else
                match assocGet objs k with
                | some (JValue.obj node) =>
                    -- `self.capability['objects'][name]['type'] = type`
                    JValue.obj (assocSet kvs "objects"
                      (JValue.obj (assocSet objs k (JValue.obj (assocSet node "type" (JValue.str ty))))))
                | _ => st.capability  -- truthy non-dict entry: item assignment raises
          | _ => st.capability  -- truthy non-dict 'objects': indexing raises
    | _ => st.capability
  { capability := cap', cur_obj_keys := ["objects", k] }

/-- The bound entries added by `if min: ... if max: ... if step:` — a bound
is stored only when it is truthy, so `None` and `0` are both dropped. -/
def boundEntry (key : String) : Option Int → List (String × JValue)
  | some m => if m ≠ 0 then [(key, JValue.num m)] else []
  | none => []

/-- The attribute node built by `register_int` / `register_float` /
`register_percent`: `{'value': v, 'typeHint': hint, 'access': access}` plus
the truthy bounds, in insertion order. -/
def numAttr (hint : String) (v : Int) (access : String)
    (mn mx stp : Option Int) : List (String × JValue) :=
  [("value", JValue.num v), ("typeHint", JValue.str hint), ("access", JValue.str access)]
    ++ boundEntry "min" mn ++ boundEntry "max" mx ++ boundEntry "step" stp

/-- `register_int(name, int, access, min, max, step)`: store the attribute
node at `name` in the current insertion scope. -/
def register_int (st : FacadeState) (name : String) (v : Int) (access : String)
    (mn mx stp : Option Int) : FacadeState :=
  { st with capability :=
      setAtPath st.capability st.cur_obj_keys name (JValue.obj (numAttr "int" v access mn mx stp)) }

/-- `register_float`: identical shape with typeHint `float` (numeric leaves
are modelled as integers). -/
def register_float (st : FacadeState) (name : String) (v : Int) (access : String)
    (mn mx stp : Option Int) : FacadeState :=
  { st with capability :=
      setAtPath st.capability st.cur_obj_keys name (JValue.obj (numAttr "float" v access mn mx stp)) }

/-- `register_percent`: identical shape with typeHint `percent`. -/
def register_percent (st : FacadeState) (name : String) (v : Int) (access : String)
    (mn mx stp : Option Int) : FacadeState :=
  { st with capability :=
      setAtPath st.capability st.cur_obj_keys name (JValue.obj (numAttr "percent" v access mn mx stp)) }

section AssocLemmas

variable {α β : Type} [DecidableEq α]

theorem assocGet_set_ne (l : List (α × β)) (key key' : α) (v : β) (h : key ≠ key') :
    assocGet (assocSet l key v) key' = assocGet l key' := by
  induction l with
  | nil => simp [assocSet, assocGet, h]
  | cons p rest ih =>
      obtain ⟨k0, v0⟩ := p
      by_cases hk : k0 = key
      · subst hk
        simp [assocSet, assocGet, h]
      · simp [assocSet, assocGet, hk, ih]

theorem assocGet_set_self (l : List (α × β)) (key : α) (v : β) :
    assocGet (assocSet l key v) key = some v := by
  induction l with
  | nil => simp [assocSet, assocGet]
  | cons p rest ih =>
      obtain ⟨k0, v0⟩ := p
      by_cases hk : k0 = key
      · subst hk
        simp [assocSet, assocGet]
      · simp [assocSet, assocGet, hk, ih]

theorem assocSet_eq_self (l : List (α × β)) (key : α) (v : β)
    (h : assocGet l key = some v) : assocSet l key v = l := by
  induction l with
  | nil => simp [assocGet] at h
  | cons p rest ih =>
      obtain ⟨k0, v0⟩ := p
      by_cases hk : k0 = key
      · subst hk
        simp [assocGet] at h
        simp [assocSet, h]
      · simp [assocGet, hk] at h
        simp [assocSet, hk, ih h]

theorem assocGet_append_of_some (l l2 : List (α × β)) (key : α) (v : β)
    (h : assocGet l key = some v) : assocGet (l ++ l2) key = some v := by
  induction l with
  | nil => simp [assocGet] at h
  | cons p rest ih =>
      obtain ⟨k0, v0⟩ := p
      by_cases hk : k0 = key
      · subst hk
        simp [assocGet] at h
        simp [assocGet, h]
      · simp [assocGet, hk] at h ⊢
        exact ih h

theorem assocGet_append_of_none (l l2 : List (α × β)) (key : α)
    (h : assocGet l key = none) : assocGet (l ++ l2) key = assocGet l2 key := by
  induction l with
  | nil => simp
  | cons p rest ih =>
      obtain ⟨k0, v0⟩ := p
      by_cases hk : k0 = key
      · subst hk
        simp [assocGet] at h
      · simp [assocGet, hk] at h ⊢
        exact ih h

theorem assocGet_isSome_of_mem (l : List (α × β)) (key : α) (v : β)
    (h : (key, v) ∈ l) : (assocGet l key).isSome = true := by
  induction l with
  | nil => simp at h
  | cons p rest ih =>
      obtain ⟨k0, v0⟩ := p
      rcases List.mem_cons.mp h with h1 | h2
      · obtain ⟨hk, hv⟩ := Prod.mk.injEq .. ▸ h1
        simp [assocGet, hk.symm]
      · by_cases hk : k0 = key
        · simp [assocGet, hk]
        · simp [assocGet, hk]
          exact ih h2

theorem assocGet_mem (l : List (α × β)) (key : α) (v : β)
    (h : assocGet l key = some v) : (key, v) ∈ l := by
  induction l with
  | nil => simp [assocGet] at h
  | cons p rest ih =>
      obtain ⟨k0, v0⟩ := p
      by_cases hk : k0 = key
      · subst hk
        simp [assocGet] at h
        simp [h]
      · simp [assocGet, hk] at h
        exact List.mem_cons_of_mem _ (ih h)

end AssocLemmas

theorem assocGet_of_mem_nodup {β : Type} (l : List (String × β)) (key : String) (v : β)
    (hnd : nodupKeys l = true) (h : (key, v) ∈ l) : assocGet l key = some v := by
  induction l with
  | nil => simp at h
  | cons p rest ih =>
      obtain ⟨k0, v0⟩ := p
      simp [nodupKeys, Bool.and_eq_true] at hnd
      rcases List.mem_cons.mp h with h1 | h2
      · obtain ⟨hk, hv⟩ := Prod.mk.injEq .. ▸ h1
        subst hk hv
        simp [assocGet]
      · by_cases hk : k0 = key
        · subst hk
          have := assocGet_isSome_of_mem rest k0 v h2
          rw [hnd.1] at this
          simp at this
        · simp [assocGet, hk]
          exact ih hnd.2 h2

theorem wfEntries_of_mem (l : List (String × JValue)) (key : String) (v : JValue)
    (hwf : wfEntries l = true) (h : (key, v) ∈ l) : wfB v = true := by
  induction l with
  | nil => simp at h
  | cons p rest ih =>
      obtain ⟨k0, v0⟩ := p
      rw [wfEntries, Bool.and_eq_true] at hwf
      rcases List.mem_cons.mp h with h1 | h2
      · obtain ⟨hk, hv⟩ := Prod.mk.injEq .. ▸ h1
        subst hv
        exact hwf.1
      · exact ih hwf.2 h2

theorem jvalue_sizeOf_pos (y : JValue) : 0 < sizeOf y := by
  cases y <;> simp_arith

theorem sizeOf_val_lt_entries (l : List (String × JValue)) (k : String) (v : JValue)
    (h : (k, v) ∈ l) : sizeOf v < sizeOf l := by
  induction l with
  | nil => simp at h
  | cons p rest ih =>
      obtain ⟨k0, v0⟩ := p
      rcases List.mem_cons.mp h with h1 | h2
      · obtain ⟨hk, hv⟩ := Prod.mk.injEq .. ▸ h1
        subst hv
        simp_arith
      · have := ih h2
        simp_arith
        omega

theorem objMerge_get_of_none (b : List (String × JValue)) :
    ∀ (a : List (String × JValue)) (key : String), assocGet b key = none →
    assocGet (objMerge a b) key = assocGet a key := by
  induction b with
  | nil => intro a key _; rw [objMerge]
  | cons p rest ih =>
      obtain ⟨k0, bv⟩ := p
      intro a key hb
      by_cases hk : k0 = key
      · subst hk
        simp [assocGet] at hb
      · simp [assocGet, hk] at hb
        rw [objMerge]
        cases hga : assocGet a k0 with
        | some av =>
            rw [ih _ key hb]
            exact assocGet_set_ne a k0 key _ hk
        | none =>
            rw [ih _ key hb]
            cases hgk : assocGet a key with
            | some w => exact assocGet_append_of_some a _ key w hgk
            | none =>
                rw [assocGet_append_of_none a _ key hgk]
                simp [assocGet, hk]

theorem objMerge_get (b : List (String × JValue)) :
    ∀ (a : List (String × JValue)) (key : String) (bv : JValue),
    nodupKeys b = true → (key, bv) ∈ b →
    assocGet (objMerge a b) key =
      some (match assocGet a key with
            | some av => mergeVal av bv
            | none => bv) := by
  induction b with
  | nil => intro a key bv _ h; simp at h
  | cons p rest ih =>
      obtain ⟨k0, bv0⟩ := p
      intro a key bv hnd hmem
      simp only [nodupKeys, Bool.and_eq_true] at hnd
      rw [objMerge]
      rcases List.mem_cons.mp hmem with h1 | h2
      · obtain ⟨hk, hv⟩ := Prod.mk.injEq .. ▸ h1
        subst hk hv
        -- this entry is processed first; `key` cannot recur in `rest`
        have hrest : assocGet rest key = none := by
          cases hr : assocGet rest key with
          | none => rfl
          | some w =>
              have := assocGet_isSome_of_mem rest key w (assocGet_mem rest key w hr)
              rw [Option.isNone_iff_eq_none] at hnd
              rw [hnd.1] at this
              simp at this
        rw [objMerge_get_of_none rest _ key hrest]
        cases hga : assocGet a key with
        | some av => rw [assocGet_set_self]
        | none =>
            rw [assocGet_append_of_none a _ key hga]
            simp [assocGet]
      · have hk : k0 ≠ key := by
          intro hk
          subst hk
          have := assocGet_isSome_of_mem rest k0 bv h2
          rw [Option.isNone_iff_eq_none] at hnd
          rw [hnd.1] at this
          simp at this
        cases hga : assocGet a k0 with
        | some av =>
            rw [ih _ key bv hnd.2 h2, assocGet_set_ne a k0 key _ hk]
        | none =>
            rw [ih _ key bv hnd.2 h2]
            cases hgk : assocGet a key with
            | some w => rw [assocGet_append_of_some a _ key w hgk]
            | none =>
                rw [assocGet_append_of_none a _ key hgk]
                simp [assocGet, hk]

theorem objMerge_fix (b : List (String × JValue)) :
    ∀ (a : List (String × JValue)),
    (∀ p ∈ b, ∃ m, assocGet a p.1 = some m ∧ mergeVal m p.2 = m) →
    objMerge a b = a := by
  induction b with
  | nil => intro a _; rw [objMerge]
  | cons p rest ih =>
      obtain ⟨k0, bv⟩ := p
      intro a hfix
      obtain ⟨m, hget, hm⟩ := hfix (k0, bv) (List.mem_cons_self _ _)
      dsimp only at hget hm
      rw [objMerge, hget]
      show objMerge (assocSet a k0 (mergeVal m bv)) rest = a
      rw [hm, assocSet_eq_self a k0 m hget]
      exact ih a (fun q hq => hfix q (List.mem_cons_of_mem _ hq))

/-- Shape test matching the first pattern of `mergeVal`. -/
def isObj : JValue → Bool
  | JValue.obj _ => true
  | _ => false

theorem mergeVal_catchall (x y : JValue) (h : (isObj x && isObj y) = false) :
    mergeVal x y = y := by
  cases x <;> cases y <;> simp_all [mergeVal, isObj]

theorem mergeVal_self_aux : ∀ (n : Nat) (y : JValue), sizeOf y ≤ n → wfB y = true →
    mergeVal y y = y := by
  intro n
  induction n with
  | zero =>
      intro y hsz _
      exact absurd hsz (by have := jvalue_sizeOf_pos y; omega)
  | succ n ih =>
      intro y hsz hwf
      cases y with
      | obj kvs =>
          show JValue.obj (objMerge kvs kvs) = JValue.obj kvs
          simp only [wfB, Bool.and_eq_true] at hwf
          rw [objMerge_fix kvs kvs ?_]
          intro p hp
          obtain ⟨k, v⟩ := p
          refine ⟨v, assocGet_of_mem_nodup kvs k v hwf.1 hp, ?_⟩
          have hszv : sizeOf v ≤ n := by
            have := sizeOf_val_lt_entries kvs k v hp
            simp_arith at hsz
            omega
          exact ih v hszv (wfEntries_of_mem kvs k v hwf.2 hp)
      | null => rfl
      | bool b => rfl
      | num m => rfl
      | str s => rfl
      | arr xs => rfl

theorem mergeVal_self (y : JValue) (h : wfB y = true) : mergeVal y y = y :=
  mergeVal_self_aux (sizeOf y) y le_rfl h

theorem mergeVal_idem_aux : ∀ (n : Nat) (y x : JValue), sizeOf y ≤ n →
    wfB x = true → wfB y = true → mergeVal (mergeVal x y) y = mergeVal x y := by
  intro n
  induction n with
  | zero =>
      intro y x hsz _ _
      exact absurd hsz (by have := jvalue_sizeOf_pos y; omega)
  | succ n ih =>
      intro y x hsz hwx hwy
      by_cases hxy : (isObj x && isObj y) = true
      · rcases x with _|_|_|_|_|a <;> rcases y with _|_|_|_|_|b <;> simp [isObj] at hxy
        simp only [wfB, Bool.and_eq_true] at hwx hwy
        show JValue.obj (objMerge (objMerge a b) b) = JValue.obj (objMerge a b)
        rw [objMerge_fix b (objMerge a b) ?_]
        intro p hp
        obtain ⟨k, bv⟩ := p
        have hget := objMerge_get b a k bv hwy.1 hp
        have hbv : wfB bv = true := wfEntries_of_mem b k bv hwy.2 hp
        cases hga : assocGet a k with
        | some av =>
            rw [hga] at hget
            refine ⟨mergeVal av bv, hget, ?_⟩
            have hav : wfB av = true :=
              wfEntries_of_mem a k av hwx.2 (assocGet_mem a k av hga)
            have hszbv : sizeOf bv ≤ n := by
              have := sizeOf_val_lt_entries b k bv hp
              simp_arith at hsz
              omega
            exact ih bv av hszbv hav hbv
        | none =>
            rw [hga] at hget
            exact ⟨bv, hget, mergeVal_self bv hbv⟩
      · rw [mergeVal_catchall x y (by simpa using hxy)]
        exact mergeVal_self y hwy

theorem mergeVal_idem (x y : JValue) (hx : wfB x = true) (hy : wfB y = true) :
    mergeVal (mergeVal x y) y = mergeVal x y :=
  mergeVal_idem_aux (sizeOf y) y x le_rfl hx hy

theorem objMerge_self (b : List (String × JValue)) (h : wfB (JValue.obj b) = true) :
    objMerge b b = b := by
  have h2 := mergeVal_self (JValue.obj b) h
  rw [show mergeVal (JValue.obj b) (JValue.obj b) = JValue.obj (objMerge b b) from rfl] at h2
  injection h2

theorem objMerge_idem (a b : List (String × JValue)) (ha : wfB (JValue.obj a) = true)
    (hb : wfB (JValue.obj b) = true) : objMerge (objMerge a b) b = objMerge a b := by
  have h2 := mergeVal_idem (JValue.obj a) (JValue.obj b) ha hb
  rw [show mergeVal (JValue.obj a) (JValue.obj b) = JValue.obj (objMerge a b) from rfl,
      show mergeVal (JValue.obj (objMerge a b)) (JValue.obj b)
        = JValue.obj (objMerge (objMerge a b) b) from rfl] at h2
  injection h2

theorem dict_merge_self (s : JValue) (hs : wfB s = true) : dict_merge s s = some s := by
  cases s with
  | obj bk => simp [dict_merge, objMerge_self bk hs]
  | null => rfl
  | bool b => rfl
  | num n => rfl
  | str s0 => rfl
  | arr l => rfl

/-- C1 counterexample: a `SET` whose payload targets the attribute `B`, whose
`access` string `"r"` does not contain `w`, nevertheless overwrites
`B.value` from `"x"` to `"y"` — `_handle_SET` performs no access check. -/
theorem handle_SET_writes_readonly_path :
    'w' ∉ "r".data
    ∧ dict_get (JValue.obj [("B", JValue.obj [("value", JValue.str "x"),
          ("typeHint", JValue.str "string"), ("access", JValue.str "r")])])
        ["B", "access"] = some (JValue.str "r")
    ∧ handle_SET
        ⟨JValue.obj [("B", JValue.obj [("value", JValue.str "x"),
            ("typeHint", JValue.str "string"), ("access", JValue.str "r")])], []⟩
        (JValue.obj [("B", JValue.obj [("value", JValue.str "y")])]) 7
      = Except.ok (⟨JValue.obj [("B", JValue.obj [("value", JValue.str "y"),
            ("typeHint", JValue.str "string"), ("access", JValue.str "r")])], []⟩,
          [Effect.cbModified (some 7)])
    ∧ JValue.str "y" ≠ JValue.str "x" :=
  ⟨by decide, rfl, rfl, by simp⟩

/-- C1 (amended): `_handle_SET` merges the payload into the capability tree
unconditionally — every path of the payload is merged regardless of its
`access` metadata, and the modified callback fires. -/
theorem handle_SET_merges_unconditionally (st : NodeState) (data : JValue) (peer : Nat)
    (cap : JValue) (h : dict_merge st.capability data = some cap) :
    handle_SET st data peer
      = Except.ok ({ st with capability := cap }, [Effect.cbModified (some peer)]) := by
  simp [handle_SET, h]

/-- C1 witness: the amended theorem applied at the read-only-attribute state. -/
theorem handle_SET_merges_unconditionally_witness :
    handle_SET
        ⟨JValue.obj [("B", JValue.obj [("value", JValue.str "x"),
            ("access", JValue.str "r")])], []⟩
        (JValue.obj [("B", JValue.obj [("value", JValue.str "y")])]) 3
      = Except.ok (⟨JValue.obj [("B", JValue.obj [("value", JValue.str "y"),
            ("access", JValue.str "r")])], []⟩, [Effect.cbModified (some 3)]) :=
  handle_SET_merges_unconditionally
    ⟨JValue.obj [("B", JValue.obj [("value", JValue.str "x"),
        ("access", JValue.str "r")])], []⟩
    (JValue.obj [("B", JValue.obj [("value", JValue.str "y")])]) 3
    (JValue.obj [("B", JValue.obj [("value", JValue.str "y"),
        ("access", JValue.str "r")])]) rfl

/-- C2 counterexample: a `GET` with a null payload is answered with a single
whisper whose sole verb key is `MOD` (carrying the full tree), not `REP`. -/
theorem handle_GET_null_replies_MOD_not_REP :
    handle_GET ⟨JValue.obj [("A", JValue.obj [("value", JValue.num 7),
        ("typeHint", JValue.str "int"), ("access", JValue.str "r")])], []⟩
        JValue.null 2
      = Except.ok (⟨JValue.obj [("A", JValue.obj [("value", JValue.num 7),
            ("typeHint", JValue.str "int"), ("access", JValue.str "r")])], []⟩,
          [Effect.whisper 2 (JValue.obj [("MOD",
            JValue.obj [("A", JValue.obj [("value", JValue.num 7),
              ("typeHint", JValue.str "int"), ("access", JValue.str "r")])])])])
    ∧ "MOD" ≠ "REP" :=
  ⟨rfl, by decide⟩

/-- C2 (amended): for every received `GET` whose payload is null, the handler
whispers back exactly one message, whose sole verb key is `MOD` and whose
payload is the node's full capability tree. -/
theorem handle_GET_null_whispers_full_tree (st : NodeState) (peer : Nat) :
    handle_GET st JValue.null peer
      = Except.ok (st, [Effect.whisper peer (JValue.obj [("MOD", st.capability)])]) := rfl

/-- C3: on the non-null payload `["A"]`, `_handle_GET` whispers `{'SET':
['A']}` to the requester (via `peer_set`) before whispering the `{'MOD': …}`
reply — the handler does send a SET message to the requester. -/
theorem handle_GET_nonnull_whispers_SET :
    handle_GET ⟨JValue.obj [("A", JValue.num 7)], []⟩ (JValue.arr [JValue.str "A"]) 4
      = Except.ok (⟨JValue.obj [("A", JValue.num 7)], []⟩,
          [Effect.whisper 4 (JValue.obj [("SET", JValue.arr [JValue.str "A"])]),
           Effect.whisper 4 (JValue.obj [("MOD", JValue.obj [("A", JValue.num 7)])])]) := rfl

/-- C4 counterexample: an EXIT event from a peer with no entry in the peer
registry raises `KeyError` out of `get_message` (`self.peers.pop(peer)`). -/
theorem get_message_exit_unknown_peer_raises :
    get_message ⟨JValue.obj [], []⟩ (Event.exit 0) = Except.error (ZErr.keyError "peer") := rfl

/-- Whether a handler run completed without an exception. -/
def exOk : Except ZErr (NodeState × List Effect) → Bool
  | Except.ok _ => true
  | Except.error _ => false

/-- C4 (amended): ENTER, JOIN and LEAVE events, and WHISPER/SHOUT events whose
frame fails JSON decoding, always run to completion; an EXIT event runs to
completion exactly when the peer has a registry entry (otherwise `peers.pop`
raises `KeyError`).  (Dispatch of decoded WHISPER/SHOUT objects can also
raise, e.g. for unknown verbs — see the unknown-verb theorem.) -/
theorem get_message_event_totality (st : NodeState) (peer : Nat) (grp : String) :
    exOk (get_message st (Event.enter peer)) = true
    ∧ exOk (get_message st (Event.join peer grp)) = true
    ∧ exOk (get_message st (Event.leave peer grp)) = true
    ∧ exOk (get_message st (Event.whisper peer none)) = true
    ∧ exOk (get_message st (Event.shout peer grp none)) = true
    ∧ (exOk (get_message st (Event.exit peer)) = true
        ↔ (assocGet st.peers peer).isSome = true) := by
  refine ⟨rfl, rfl, rfl, rfl, rfl, ?_⟩
  cases hg : assocGet st.peers peer with
  | some m => simp [get_message, hg, exOk]
  | none => simp [get_message, hg, exOk]

/-- C5: merging the same payload twice is the same as merging it once:
if `dict_merge t s` succeeds with result `r` then `dict_merge r s` returns
`r` again (for Python-dict-shaped values, i.e. duplicate-free keys). -/
theorem dict_merge_idem (t s : JValue) (ht : wfB t = true) (hs : wfB s = true)
    (r : JValue) (hr : dict_merge t s = some r) : dict_merge r s = some r := by
  cases t with
  | obj ak =>
      cases s with
      | obj bk =>
          simp only [dict_merge, Option.some.injEq] at hr
          subst hr
          simp [dict_merge, objMerge_idem ak bk ht hs]
      | str s0 =>
          by_cases h0 : s0 = ""
          · subst h0
            simp only [dict_merge, if_pos, Option.some.injEq] at hr
            subst hr
            simp [dict_merge]
          · simp [dict_merge, h0] at hr
      | arr l =>
          cases l with
          | nil =>
              simp only [dict_merge, List.isEmpty_nil, if_pos, Option.some.injEq] at hr
              subst hr
              simp [dict_merge]
          | cons x xs => simp [dict_merge] at hr
      | null => simp [dict_merge] at hr
      | bool b => simp [dict_merge] at hr
      | num n => simp [dict_merge] at hr
  | null =>
      simp only [dict_merge, Option.some.injEq] at hr
      subst hr
      exact dict_merge_self s hs
  | bool b =>
      simp only [dict_merge, Option.some.injEq] at hr
      subst hr
      exact dict_merge_self s hs
  | num n =>
      simp only [dict_merge, Option.some.injEq] at hr
      subst hr
      exact dict_merge_self s hs
  | str s0 =>
      simp only [dict_merge, Option.some.injEq] at hr
      subst hr
      exact dict_merge_self s hs
  | arr l =>
      simp only [dict_merge, Option.some.injEq] at hr
      subst hr
      exact dict_merge_self s hs

/-- C5 witness: the idempotence theorem applied at a concrete tree/payload. -/
theorem dict_merge_idem_witness :
    dict_merge (JValue.obj [("A", JValue.num 2), ("B", JValue.obj [("c", JValue.num 3)])])
        (JValue.obj [("A", JValue.num 2), ("B", JValue.obj [("c", JValue.num 3)])])
      = some (JValue.obj [("A", JValue.num 2), ("B", JValue.obj [("c", JValue.num 3)])]) :=
  dict_merge_idem (JValue.obj [("A", JValue.num 1)])
    (JValue.obj [("A", JValue.num 2), ("B", JValue.obj [("c", JValue.num 3)])])
    (by decide) (by decide)
    (JValue.obj [("A", JValue.num 2), ("B", JValue.obj [("c", JValue.num 3)])]) rfl

/-- C6: `peer_unsubscribe(peer, signal, sensor)` whispers a message whose
sole verb key is `SUB` — not `UNSUB` — with payload `[signal, sensor]`
(the source duplicates the `peer_subscribe` body). -/
theorem peer_unsubscribe_sends_SUB :
    peer_unsubscribe 1 (JValue.str "sigA") (JValue.str "sensB")
      = Effect.whisper 1 (JValue.obj [("SUB",
          JValue.arr [JValue.str "sigA", JValue.str "sensB"])])
    ∧ "SUB" ≠ "UNSUB" :=
  ⟨rfl, by decide⟩

/-- C7 counterexample: a WHISPER carrying the unknown verb `FOO` makes the
dispatcher raise `Exception('No FOO method on resource...')` instead of
logging and dropping the message. -/
theorem get_message_unknown_verb_raises :
    get_message ⟨JValue.obj [], []⟩
        (Event.whisper 3 (some (JValue.obj [("FOO", JValue.null)])))
      = Except.error (ZErr.exc "No FOO method on resource") := rfl

/-- C7 (amended): for every verb outside {GET, SET, CALL, SUB, UNSUB, REP,
MOD, SIG}, the dispatcher raises `Exception('No <verb> method on resource')`
(the base class has no `handle_<verb>` attribute); the message is not
silently dropped. -/
theorem dispatchVerb_unknown (st : NodeState) (verb : String) (payload : JValue)
    (peer : Nat)
    (h : verb ∉ ["GET", "SET", "CALL", "SUB", "UNSUB", "REP", "MOD", "SIG"]) :
    dispatchVerb st verb payload peer
      = Except.error (ZErr.exc ("No " ++ verb ++ " method on resource")) := by
  simp only [List.mem_cons, List.mem_singleton, not_or] at h
  obtain ⟨h1, h2, h3, h4, h5, h6, h7, h8⟩ := h
  simp [dispatchVerb, h1, h2, h3, h4, h5, h6, h7, h8]

/-- C7 witness: the unknown-verb theorem applied at the verb `FOO`. -/
theorem dispatchVerb_unknown_witness :
    dispatchVerb ⟨JValue.obj [], []⟩ "FOO" JValue.null 3
      = Except.error (ZErr.exc "No FOO method on resource") :=
  dispatchVerb_unknown ⟨JValue.obj [], []⟩ "FOO" JValue.null 3 (by decide)

/-- C8 counterexample: a `REP` whisper from peer 1 leaves peer 1's mirror
untouched (still `{}`) and fires no callback, while the same payload sent as
`MOD` merges it into the mirror and fires the peer-modified callback — `REP`
is not treated like `MOD`. -/
theorem handle_REP_not_like_MOD :
    get_message ⟨JValue.obj [], [(1, JValue.obj [])]⟩
        (Event.whisper 1 (some (JValue.obj [("REP", JValue.obj [("x", JValue.num 1)])])))
      = Except.ok (⟨JValue.obj [], [(1, JValue.obj [])]⟩, [Effect.cbWhisper 1])
    ∧ get_message ⟨JValue.obj [], [(1, JValue.obj [])]⟩
        (Event.whisper 1 (some (JValue.obj [("MOD", JValue.obj [("x", JValue.num 1)])])))
      = Except.ok (⟨JValue.obj [], [(1, JValue.obj [("x", JValue.num 1)])]⟩,
          [Effect.cbWhisper 1, Effect.cbPeerModified 1])
    ∧ JValue.obj ([] : List (String × JValue)) ≠ JValue.obj [("x", JValue.num 1)] :=
  ⟨rfl, rfl, by simp⟩

/-- C8 (amended): `_handle_REP` is a no-op: a `REP` payload is discarded
without touching the peer registry and without invoking any callback. -/
theorem dispatchVerb_REP_noop (st : NodeState) (payload : JValue) (peer : Nat) :
    dispatchVerb st "REP" payload peer = Except.ok (st, []) := rfl

/-- C9: `set_object(None)` does not leave the insertion scope at the root:
the reset branch falls through, `objects[None]` is created, and the scope
ends at `('objects', None)`, so a subsequent `register_int('x', 5)` files the
attribute under `objects[None]` and the tree's top level gains no `x` key. -/
theorem set_object_none_scope_not_root :
    (set_object ⟨JValue.obj [], []⟩ none "Unknown").cur_obj_keys = ["objects", "null"]
    ∧ ["objects", "null"] ≠ ([] : List String)
    ∧ (register_int (set_object ⟨JValue.obj [], []⟩ none "Unknown")
          "x" 5 "r" none none none).capability
        = JValue.obj [("objects", JValue.obj [("null",
            JValue.obj [("type", JValue.str "Unknown"),
              ("x", JValue.obj [("value", JValue.num 5),
                ("typeHint", JValue.str "int"), ("access", JValue.str "r")])])])]
    ∧ dict_get (register_int (set_object ⟨JValue.obj [], []⟩ none "Unknown")
          "x" 5 "r" none none none).capability ["x"] = none :=
  ⟨rfl, by simp, rfl, rfl⟩

/-- C10: `register_int` / `register_float` / `register_percent` drop a bound
passed as `0` (the `if min:` truthiness test), storing an attribute node
without the `min`/`max`/`step` keys, while any non-zero bound is stored. -/
theorem register_zero_bounds_dropped (st : FacadeState) (name : String) (v : Int)
    (access : String) (m : Int) (hm : m ≠ 0) :
    register_int st name v access (some 0) (some 0) (some 0)
      = { st with capability := (setAtPath st.capability st.cur_obj_keys name
            (JValue.obj [("value", JValue.num v), ("typeHint", JValue.str "int"),
              ("access", JValue.str access)])) }
    ∧ register_float st name v access (some 0) (some 0) (some 0)
      = { st with capability := (setAtPath st.capability st.cur_obj_keys name
            (JValue.obj [("value", JValue.num v), ("typeHint", JValue.str "float"),
              ("access", JValue.str access)])) }
    ∧ register_percent st name v access (some 0) (some 0) (some 0)
      = { st with capability := (setAtPath st.capability st.cur_obj_keys name
            (JValue.obj [("value", JValue.num v), ("typeHint", JValue.str "percent"),
              ("access", JValue.str access)])) }
    ∧ assocGet (numAttr "int" v access (some m) (some m) (some m)) "min"
        = some (JValue.num m)
    ∧ assocGet (numAttr "int" v access (some m) (some m) (some m)) "max"
        = some (JValue.num m)
    ∧ assocGet (numAttr "int" v access (some m) (some m) (some m)) "step"
        = some (JValue.num m) := by
  refine ⟨?_, ?_, ?_, ?_, ?_, ?_⟩ <;>
    simp [register_int, register_float, register_percent, numAttr, boundEntry,
      assocGet, hm]

/-- C10 witness: the zero-bound theorem applied at a concrete registration. -/
theorem register_zero_bounds_dropped_witness :
    register_int ⟨JValue.obj [], []⟩ "x" 5 "rw" (some 0) (some 0) (some 0)
      = ⟨JValue.obj [("x", JValue.obj [("value", JValue.num 5),
          ("typeHint", JValue.str "int"), ("access", JValue.str "rw")])], []⟩
    ∧ register_float ⟨JValue.obj [], []⟩ "x" 5 "rw" (some 0) (some 0) (some 0)
      = ⟨JValue.obj [("x", JValue.obj [("value", JValue.num 5),
          ("typeHint", JValue.str "float"), ("access", JValue.str "rw")])], []⟩
    ∧ register_percent ⟨JValue.obj [], []⟩ "x" 5 "rw" (some 0) (some 0) (some 0)
      = ⟨JValue.obj [("x", JValue.obj [("value", JValue.num 5),
          ("typeHint", JValue.str "percent"), ("access", JValue.str "rw")])], []⟩
    ∧ assocGet (numAttr "int" 5 "rw" (some 7) (some 7) (some 7)) "min"
        = some (JValue.num 7)
    ∧ assocGet (numAttr "int" 5 "rw" (some 7) (some 7) (some 7)) "max"
        = some (JValue.num 7)
    ∧ assocGet (numAttr "int" 5 "rw" (some 7) (some 7) (some 7)) "step"
        = some (JValue.num 7) :=
  register_zero_bounds_dropped ⟨JValue.obj [], []⟩ "x" 5 "rw" 7 (by decide)
